import Mathlib

/-!
# Verification of the AssppWeb package acquisition-and-injection pipeline

Shallow embedding of the Rust core (`asspp-core` and the worker's
`download_manager`) and proofs about the claims of the specification.

Strings are modelled as `List Char` (`Str`); bytes as `List Nat`.
External library calls (the `url` crate's URL parser, the `zip` crate's
container codec, the `plist` crate's serializer, the `base64` decoder,
the network fetch and the two storage backends) are modelled as explicit
parameters or abstract inputs; everything written in this repository's
own source files is translated definition-by-definition.
-/

/-- Strings of the Rust source are modelled as lists of characters. -/
abbrev Str := List Char

deriving instance DecidableEq for Except

/-- Decimal/hex digit reading: Rust's `char::to_digit(radix)`. -/
def digitVal (radix : Nat) (c : Char) : Option Nat :=
  let v : Option Nat :=
    if 48 ≤ c.toNat ∧ c.toNat ≤ 57 then some (c.toNat - 48)
    else if 97 ≤ c.toNat ∧ c.toNat ≤ 122 then some (c.toNat - 87)
    else if 65 ≤ c.toNat ∧ c.toNat ≤ 90 then some (c.toNat - 55)
    else none
  match v with
  | some n => if n < radix then some n else none
  | none => none

/-- `startsW pre s`: `s` starts with `pre` (Rust `str::starts_with`). -/
def startsW : Str → Str → Bool
  | [], _ => true
  | _ :: _, [] => false
  | a :: as, b :: bs => a = b && startsW as bs

/-- `endsW suf s`: `s` ends with `suf` (Rust `str::ends_with`). -/
def endsW (suf s : Str) : Bool :=
  decide (suf.length ≤ s.length) && decide (s.drop (s.length - suf.length) = suf)

/-- `containsSub needle hay`: substring containment (Rust `str::contains`). -/
def containsSub : Str → Str → Bool
  | needle, [] => decide (needle = [])
  | needle, c :: rest => startsW needle (c :: rest) || containsSub needle rest

/-- Rust `str::split(sep)`: split on a separator character, keeping empty
pieces. -/
def splitOnChar (sep : Char) : Str → List Str
  | [] => [[]]
  | c :: rest =>
    let r := splitOnChar sep rest
    if c = sep then [] :: r
    else
      match r with
      | [] => [[c]]
      | h :: t => (c :: h) :: t

/-- Rust `char::to_ascii_lowercase`. -/
def toAsciiLowerChar (c : Char) : Char :=
  if 65 ≤ c.toNat ∧ c.toNat ≤ 90 then Char.ofNat (c.toNat + 32) else c

/-- Rust `str::to_ascii_lowercase`. -/
def toAsciiLower (s : Str) : Str := s.map toAsciiLowerChar

/-- Rust `char::is_ascii_alphanumeric`. -/
def isAsciiAlphanum (c : Char) : Bool :=
  (48 ≤ c.toNat && c.toNat ≤ 57) || (65 ≤ c.toNat && c.toNat ≤ 90) ||
    (97 ≤ c.toNat && c.toNat ≤ 122)

/-- Rust `char::is_ascii_hexdigit` (used only to state the spec's wording
about guid validation; the source itself does not restrict to hex). -/
def isAsciiHexDigit (c : Char) : Bool :=
  (48 ≤ c.toNat && c.toNat ≤ 57) || (65 ≤ c.toNat && c.toNat ≤ 70) ||
    (97 ≤ c.toNat && c.toNat ≤ 102)

/-! ## security.rs — path segment validation -/

/-- `security.rs::is_safe_segment_char`. -/
def is_safe_segment_char (c : Char) : Bool :=
  isAsciiAlphanum c || c = '.' || c = '_' || c = '-'

/-- `security.rs::validate_path_segment` (the label only feeds the error
message; we keep the message fixed). -/
def validate_path_segment (value : Str) : Except Str Unit :=
  if value = [] ∨ ¬ value.all is_safe_segment_char then
    .error "Invalid segment: bad characters".toList
  else if value = ['.'] ∨ value = ['.', '.'] then
    .error "Invalid segment".toList
  else .ok ()

/-- `security.rs::sanitize_path_segment`. -/
def sanitize_path_segment (value : Str) : Except Str Str :=
  let cleaned := value.map (fun c => if is_safe_segment_char c then c else '_')
  if cleaned = [] ∨ cleaned = ['.'] ∨ cleaned = ['.', '.'] then
    .error "Invalid path segment".toList
  else .ok cleaned

/-! ## security.rs — download URL validation

Rust's `std::net` IP-literal parsers, which `is_ip_address` calls, are
modelled after the standard library's `Parser` (greedy digit groups with
backtracking); the `url` crate's URL parser itself is kept abstract: the
validator is stated over its output (`ParsedUrl`). -/

/-- One step of `std::net` `Parser::read_number`: read digits greedily in
the given radix, bounded by `maxVal` (checked arithmetic of the target
integer type) and by an optional maximal digit count. Returns the value,
the digit count and the remaining input, or `none` on overflow. -/
def readNumLoop (radix maxVal : Nat) (maxDigits : Option Nat) :
    Nat → Nat → Str → Option (Nat × Nat × Str)
  | acc, count, [] => some (acc, count, [])
  | acc, count, c :: rest =>
    match digitVal radix c with
    | none => some (acc, count, c :: rest)
    | some d =>
      let acc' := acc * radix + d
      if acc' > maxVal then none
      else if (match maxDigits with | some m => decide (count + 1 > m) | none => false) then
        none
      else readNumLoop radix maxVal maxDigits acc' (count + 1) rest

/-- `std::net` `Parser::read_number`: digit run with no-leading-zero
handling (`allowZero = false` for IPv4 octets, `true` for IPv6 groups). -/
def readNum (radix maxVal : Nat) (maxDigits : Option Nat) (allowZero : Bool)
    (s : Str) : Option (Nat × Str) :=
  let leadingZero := match s with | '0' :: _ => true | _ => false
  match readNumLoop radix maxVal maxDigits 0 0 s with
  | none => none
  | some (acc, count, rest) =>
    if count = 0 then none
    else if !allowZero && leadingZero && decide (count > 1) then none
    else some (acc, rest)

/-- `std::net` `Parser::read_separator` for an IPv4 octet: the first octet
is read directly, later ones demand a leading `'.'`. -/
def readOctet (i : Nat) (s : Str) : Option (Nat × Str) :=
  match i, s with
  | 0, s => readNum 10 255 (some 3) false s
  | _ + 1, '.' :: rest => readNum 10 255 (some 3) false rest
  | _ + 1, _ => none

/-- `std::net` `Parser::read_ipv4_addr`: four octets. -/
def readIpv4 (s : Str) : Option (List Nat × Str) :=
  match readOctet 0 s with
  | none => none
  | some (a, s1) =>
    match readOctet 1 s1 with
    | none => none
    | some (b, s2) =>
      match readOctet 2 s2 with
      | none => none
      | some (c, s3) =>
        match readOctet 3 s3 with
        | none => none
        | some (d, s4) => some ([a, b, c, d], s4)

/-- `host.parse::<Ipv4Addr>().is_ok()`: the whole string must be consumed. -/
def isIpv4String (s : Str) : Bool :=
  match readIpv4 s with
  | some (_, []) => true
  | _ => false

/-- An IPv6 group read with its separator: the first group is read
directly, later ones demand a leading `':'`. -/
def readGroupAt (i : Nat) (s : Str) : Option (Nat × Str) :=
  match i, s with
  | 0, s => readNum 16 65535 (some 4) true s
  | _ + 1, ':' :: rest => readNum 16 65535 (some 4) true rest
  | _ + 1, _ => none

/-- A trailing embedded IPv4 quad read with its separator. -/
def readIpv4At (i : Nat) (s : Str) : Option (List Nat × Str) :=
  match i, s with
  | 0, s => readIpv4 s
  | _ + 1, ':' :: rest => readIpv4 rest
  | _ + 1, _ => none

/-- `std::net` `read_groups`: reads up to `fuel` more groups starting at
index `i`, trying a trailing embedded IPv4 quad while at least two slots
remain. Returns (groups consumed, ended on an IPv4 quad, rest). -/
def readGroupsAux : Nat → Nat → Str → Nat × Bool × Str
  | 0, i, s => (i, false, s)
  | fuel + 1, i, s =>
    match (if 1 ≤ fuel then readIpv4At i s else none) with
    | some (_, rest) => (i + 2, true, rest)
    | none =>
      match readGroupAt i s with
      | some (_, rest) => readGroupsAux fuel (i + 1) rest
      | none => (i, false, s)

/-- `std::net` `Parser::read_ipv6_addr`: a full head of 8 groups, or a
shorter head, a literal `::`, and a tail of at most `8 - (head + 1)`
groups. Returns the remaining input on success. -/
def readIpv6 (s : Str) : Option Str :=
  let (headSize, headIpv4, s1) := readGroupsAux 8 0 s
  if headSize = 8 then some s1
  else if headIpv4 then none
  else
    match s1 with
    | ':' :: ':' :: s2 =>
      let limit := 8 - (headSize + 1)
      let (_, _, s3) := readGroupsAux limit 0 s2
      some s3
    | _ => none

/-- `host.parse::<Ipv6Addr>().is_ok()`: the whole string must be consumed. -/
def isIpv6String (s : Str) : Bool :=
  match readIpv6 s with
  | some [] => true
  | _ => false

/-- `security.rs::is_ip_address`. -/
def is_ip_address (host : Str) : Bool :=
  isIpv4String host || isIpv6String host ||
    (match host with | '[' :: _ => true | _ => false)

/-- `security.rs::is_apple_domain`: the lower-cased host must end with
the literal suffix `".apple.com"`. -/
def is_apple_domain (host : Str) : Bool :=
  endsW ".apple.com".toList (toAsciiLower host)

/-- The part of `url::Url::parse`'s output that
`security.rs::validate_download_url` inspects: the scheme and the host
string (`host_str()`, `none` for host-less URLs). The URL parser itself
is an external crate and is kept abstract. -/
structure ParsedUrl where
  scheme : Str
  host : Option Str
deriving DecidableEq

/-- `security.rs::validate_download_url`, stated over the abstract parse
result (`none` models a parse failure). -/
def validate_download_url (parsed : Option ParsedUrl) : Except Str Unit :=
  match parsed with
  | none => .error "Invalid download URL".toList
  | some p =>
    if p.scheme ≠ "https".toList then .error "Download URL must use HTTPS".toList
    else
      match p.host with
      | none => .error "Invalid download URL".toList
      | some host =>
        if is_ip_address host then
          .error "Download URL must not use IP addresses".toList
        else if ¬ is_apple_domain host then
          .error "Download URL must be from an Apple domain (*.apple.com)".toList
        else .ok ()

/-! ## download.rs — account hash validation -/

/-- `download.rs::validate_account_hash`. -/
def validate_account_hash (hash : Str) : Bool :=
  decide (hash.length ≥ 8) &&
    hash.all (fun c => isAsciiAlphanum c || c = '.' || c = '_' || c = '-')

/-- The spec's wording of guid validation ("accepts iff non-empty and
every character is an ASCII hex digit"), stated for comparison with the
source's `validate_account_hash`. -/
def spec_guid_accepts (hash : Str) : Prop :=
  hash ≠ [] ∧ ∀ c ∈ hash, isAsciiHexDigit c = true

instance : DecidablePred spec_guid_accepts := fun h => by
  unfold spec_guid_accepts; infer_instance

/-! ## sinf.rs — injection planning -/

/-- `sinf.rs::InjectionPlan`. -/
structure InjectionPlan where
  files : List (Str × List Nat)
deriving DecidableEq

/-- `sinf.rs::InjectionSource`. -/
inductive InjectionSource where
  /-- Use `SinfPaths` from `Manifest.plist`. -/
  | manifest (sinfPaths : List Str)
  /-- Use `CFBundleExecutable` from `Info.plist` to derive the sinf path. -/
  | info (bundleExecutable : Str)
deriving DecidableEq

/-- `sinf.rs::plan_injection`: decoded sinfs are `(id, bytes)` pairs. -/
def plan_injection (bundleName : Str) (source : InjectionSource)
    (sinfs : List (Int × List Nat)) (itunesMetadataBinary : Option (List Nat)) :
    InjectionPlan :=
  let base : List (Str × List Nat) :=
    match source with
    | .manifest sinfPaths =>
      (sinfPaths.zip sinfs).map (fun ps =>
        ("Payload/".toList ++ bundleName ++ ".app/".toList ++ ps.1, ps.2.2))
    | .info bundleExecutable =>
      match sinfs with
      | [] => []
      | s :: _ =>
        [("Payload/".toList ++ bundleName ++ ".app/SC_Info/".toList ++
            bundleExecutable ++ ".sinf".toList, s.2)]
  match itunesMetadataBinary with
  | some metadata => ⟨base ++ [("iTunesMetadata.plist".toList, metadata)]⟩
  | none => ⟨base⟩

/-- `sinf.rs::extract_bundle_name`. -/
def extract_bundle_name (entryPath : Str) : Option Str :=
  if containsSub "/Watch/".toList entryPath then none
  else if ¬ containsSub ".app/Info.plist".toList entryPath then none
  else
    match (splitOnChar '/' entryPath).find? (fun comp => endsW ".app".toList comp) with
    | some comp => some (comp.take (comp.length - 4))
    | none => none

/-- `sinf.rs::is_manifest_plist`. -/
def is_manifest_plist (entryPath : Str) : Bool :=
  endsW ".app/SC_Info/Manifest.plist".toList entryPath

/-- `sinf.rs::is_info_plist`. -/
def is_info_plist (entryPath : Str) : Bool :=
  containsSub ".app/Info.plist".toList entryPath &&
    !containsSub "/Watch/".toList entryPath

/-! ## plist_util.rs — typed accessors over a generic plist value tree

The `plist` crate's `Value` is modelled as a small tagged tree; the
crate's parser and binary serializer are abstract parameters wherever the
worker calls them. -/

/-- The shape of `plist::Value` that the accessors inspect. -/
inductive PValue where
  | str (s : Str)
  | arr (xs : List PValue)
  | dict (entries : List (Str × PValue))
  | other

/-- Dictionary lookup: `value.as_dictionary()?.get(key)`. -/
def pv_get (v : PValue) (key : Str) : Option PValue :=
  match v with
  | .dict es => (es.find? (fun kv => kv.1 = key)).map (fun kv => kv.2)
  | _ => none

/-- `plist_util.rs::get_string`. -/
def get_string (v : PValue) (key : Str) : Option Str :=
  match pv_get v key with
  | some (.str s) => some s
  | _ => none

/-- `plist_util.rs::get_string_array`: array elements that are not
strings are silently dropped (`filter_map(as_string)`). -/
def get_string_array (v : PValue) (key : Str) : Option (List Str) :=
  match pv_get v key with
  | some (.arr xs) =>
    some (xs.filterMap (fun x => match x with | .str s => some s | _ => none))
  | _ => none

/-! ## download_manager.rs — in-memory SINF injection -/

/-- A ZIP entry's compression method: planned entries are written
`Stored`; copied entries keep whatever method they had. -/
inductive ZMethod where
  | stored
  | other (code : Nat)
deriving DecidableEq

/-- A ZIP entry as the rewrite loop sees it: its archive path, its
compression method and its payload bytes (raw-copied verbatim for
untouched entries). -/
structure ZEntry where
  name : Str
  method : ZMethod
  data : List Nat
deriving DecidableEq

/-- `Sinf` of types.rs: an id and a base64-encoded blob. -/
structure Sinf where
  id : Int
  sinf : Str
deriving DecidableEq

/-- The bundle-name discovery loop of `inject_sinfs_in_memory`: the first
entry whose name yields a bundle name. -/
def find_bundle_name (entries : List ZEntry) : Option Str :=
  entries.findSome? (fun e => extract_bundle_name e.name)

/-- The injection-source discovery of `inject_sinfs_in_memory`: scan for
the first `Manifest.plist` entry and stop there whether or not it parses
and carries a `SinfPaths` string array; if that produced nothing, scan
for the first `Info.plist` entry and stop there whether or not it parses
and carries `CFBundleExecutable`. `plistParse` stands for the external
`plist_util::parse_plist`. -/
def find_source (plistParse : List Nat → Option PValue) (entries : List ZEntry) :
    Option InjectionSource :=
  let fromManifest : Option InjectionSource :=
    match entries.find? (fun e => is_manifest_plist e.name) with
    | some e =>
      (plistParse e.data).bind (fun v =>
        (get_string_array v "SinfPaths".toList).map (fun ps => .manifest ps))
    | none => none
  match fromManifest with
  | some s => some s
  | none =>
    match entries.find? (fun e => is_info_plist e.name) with
    | some e =>
      (plistParse e.data).bind (fun v =>
        (get_string v "CFBundleExecutable".toList).map (fun x => .info x))
    | none => none

/-- The sinf-decoding loop of `inject_sinfs_in_memory`: base64-decode
every blob, stopping at the first failure (`collect::<Result<_>>`);
`b64decode` stands for the external base64 engine. -/
def decode_sinfs (b64decode : Str → Except Str (List Nat)) :
    List Sinf → Except Str (List (Int × List Nat))
  | [] => .ok []
  | s :: rest =>
    match b64decode s.sinf with
    | .error e => .error ("Decode sinf: ".toList ++ e)
    | .ok d =>
      match decode_sinfs b64decode rest with
      | .error e => .error e
      | .ok ds => .ok ((s.id, d) :: ds)

/-- The metadata-preparation step of `inject_sinfs_in_memory` (lines
186–197): base64-decode the blob, try the XML-to-binary plist
conversion, and on conversion failure fall back to the raw decoded
bytes. `xmlToBinary` stands for `plist_util::xml_to_binary_plist`
composed with the lossy UTF-8 view of the decoded bytes. -/
def prepare_metadata (b64decode : Str → Except Str (List Nat))
    (xmlToBinary : List Nat → Except Str (List Nat))
    (itunesMetadataB64 : Option Str) : Except Str (Option (List Nat)) :=
  match itunesMetadataB64 with
  | none => .ok none
  | some b64 =>
    match b64decode b64 with
    | .error e => .error ("Decode metadata: ".toList ++ e)
    | .ok xmlBytes =>
      match xmlToBinary xmlBytes with
      | .ok binary => .ok (some binary)
      | .error _ => .ok (some xmlBytes)

/-- The ZIP rewrite loop of `inject_sinfs_in_memory` (lines 206–236):
copy every original entry whose path is not a planned path verbatim,
then write every planned file as a new `Stored` entry. -/
def rewrite_zip (entries : List ZEntry) (planFiles : List (Str × List Nat)) :
    List ZEntry :=
  entries.filter (fun e => !planFiles.any (fun f => decide (f.1 = e.name))) ++
    planFiles.map (fun f => ⟨f.1, .stored, f.2⟩)

/-- The result of `inject_sinfs_in_memory`: either the untouched input
bytes (empty plan) or a fresh archive serialized from the given entries
by the external ZIP writer. -/
inductive RewriteOutput where
  | original (bytes : List Nat)
  | rewritten (entries : List ZEntry)
deriving DecidableEq

/-- `download_manager.rs::inject_sinfs_in_memory`, with the external
codecs abstract: `zipParse` is the `zip` crate's archive reader (`none`
models an unreadable archive), `plistParse` the plist parser,
`b64decode` the base64 engine, `xmlToBinary` the XML-to-binary plist
conversion. -/
def inject_sinfs_in_memory
    (zipParse : List Nat → Option (List ZEntry))
    (plistParse : List Nat → Option PValue)
    (b64decode : Str → Except Str (List Nat))
    (xmlToBinary : List Nat → Except Str (List Nat))
    (ipaData : List Nat) (sinfs : List Sinf) (itunesMetadataB64 : Option Str) :
    Except Str RewriteOutput :=
  match zipParse ipaData with
  | none => .error "Read ZIP".toList
  | some entries =>
    match find_bundle_name entries with
    | none => .error "Could not read bundle name".toList
    | some bundleName =>
      match find_source plistParse entries with
      | none => .error "Could not read manifest or info plist".toList
      | some source =>
        match decode_sinfs b64decode sinfs with
        | .error e => .error e
        | .ok sinfData =>
          match prepare_metadata b64decode xmlToBinary itunesMetadataB64 with
          | .error e => .error e
          | .ok metadataBinary =>
            let plan := plan_injection bundleName source sinfData metadataBinary
            if plan.files = [] then .ok (.original ipaData)
            else .ok (.rewritten (rewrite_zip entries plan.files))

/-! ## download_manager.rs — the acquisition orchestrator

`download_and_store` is modelled as a pure function of the initial task,
the (abstract) URL-parse result, the fetch response, and the outcome of
the in-memory injection sub-pipeline. It returns the ordered list of
metadata-store writes (`kv.put_task`), the blob-store writes (`r2.put`)
and the overall outcome. Storage writes themselves are taken to succeed;
a storage failure aborts the run via `?` and performs no further writes,
so the recorded traces are exactly the writes a completed run issues. -/

/-- `types.rs::TaskStatus`. -/
inductive TaskStatus where
  | pending
  | downloading
  | paused
  | injecting
  | completed
  | failed
deriving DecidableEq

/-- The fields of `types.rs::Software` the orchestrator reads (the other
catalog-descriptor fields are carried through unmodified and never
inspected by the pipeline). -/
structure Software where
  bundleId : Str
  version : Str
deriving DecidableEq

/-- `types.rs::DownloadTask` (the `speed` and `created_at` strings are
carried through untouched by the orchestrator and omitted here). -/
structure DownloadTask where
  id : Str
  software : Software
  accountHash : Str
  downloadUrl : Str
  sinfs : List Sinf
  itunesMetadata : Option Str
  status : TaskStatus
  progress : Nat
  error : Option Str
  filePath : Option Str
deriving DecidableEq

/-- Decimal rendering of a number, for the `format!("HTTP {}", ...)`
error message. -/
def natToStr (n : Nat) : Str := (Nat.repr n).toList

/-- The R2 object key `format!("packages/{}/{}/{}/{}.ipa", ...)`. -/
def r2_key (t : DownloadTask) : Str :=
  "packages/".toList ++ t.accountHash ++ "/".toList ++ t.software.bundleId ++
    "/".toList ++ t.software.version ++ "/".toList ++ t.id ++ ".ipa".toList

/-- The observable effects of one `download_and_store` run. -/
structure OrchestratorRun where
  kvPuts : List DownloadTask
  r2Puts : List (Str × List Nat)
  outcome : Except Str Unit
deriving DecidableEq

/-- `download_manager.rs::download_and_store`. `parsedUrl` is the
abstract result of `url::Url::parse(task.download_url)`; `respStatus`
and `respBytes` the fetch response; `injectResult` the outcome of
`inject_sinfs_in_memory(bytes, sinfs, metadata)` (only consulted when
`sinfs` is non-empty). -/
def download_and_store (t0 : DownloadTask) (parsedUrl : Option ParsedUrl)
    (respStatus : Nat) (respBytes : List Nat)
    (injectResult : Except Str (List Nat)) : OrchestratorRun :=
  let t1 := { t0 with status := TaskStatus.downloading }
  match validate_download_url parsedUrl with
  | .error e => ⟨[t1], [], .error e⟩
  | .ok _ =>
    if 400 ≤ respStatus then
      let t2 := { t1 with status := TaskStatus.failed,
                          error := some "Download failed".toList }
      ⟨[t1, t2], [], .error ("HTTP ".toList ++ natToStr respStatus)⟩
    else
      let key := r2_key t0
      if t1.sinfs ≠ [] then
        let t2 := { t1 with status := TaskStatus.injecting }
        let finalBytes := match injectResult with
          | .ok modified => modified
          | .error _ => respBytes
        let t3 := { t2 with status := TaskStatus.completed, progress := 100,
                            downloadUrl := [], sinfs := [],
                            itunesMetadata := none, filePath := some key }
        ⟨[t1, t2, t3], [(key, finalBytes)], .ok ()⟩
      else
        let t3 := { t1 with status := TaskStatus.completed, progress := 100,
                            downloadUrl := [], sinfs := [],
                            itunesMetadata := none, filePath := some key }
        ⟨[t1, t3], [(key, respBytes)], .ok ()⟩

/-! ## Claims about the injection planner -/

/-- **C6.** With a `Manifest` source carrying `M` sinf paths, `N` decoded
signing blobs with `N < M` and no metadata, `plan_injection` yields
exactly `N` files, the `i`-th pairing the `i`-th path (prefixed with
`Payload/<bundle>.app/`) with the `i`-th blob's bytes, in input order. -/
theorem c6_plan_manifest_truncates (b : Str) (paths : List Str)
    (sinfs : List (Int × List Nat)) (hlt : sinfs.length < paths.length) :
    (plan_injection b (.manifest paths) sinfs none).files.length = sinfs.length ∧
    ∀ i (hf : i < (plan_injection b (.manifest paths) sinfs none).files.length)
      (hp : i < paths.length) (hs : i < sinfs.length),
      (plan_injection b (.manifest paths) sinfs none).files.get ⟨i, hf⟩ =
        ("Payload/".toList ++ b ++ ".app/".toList ++ paths.get ⟨i, hp⟩,
          (sinfs.get ⟨i, hs⟩).2) := by
  constructor
  · simp [plan_injection, Nat.min_eq_right (Nat.le_of_lt hlt)]
  · intro i hf hp hs
    simp [plan_injection, List.get_eq_getElem, List.getElem_map, List.getElem_zip]

/-- Closed witness for `c6_plan_manifest_truncates` at one blob and three
paths. -/
theorem c6_plan_manifest_truncates_witness :
    ([(0, [1])] : List (Int × List Nat)).length <
        (["a.sinf".toList, "b.sinf".toList, "c.sinf".toList]).length ∧
    ((plan_injection "App".toList
        (.manifest ["a.sinf".toList, "b.sinf".toList, "c.sinf".toList])
        [(0, [1])] none).files.length = 1 ∧
      ∀ i (hf : i < (plan_injection "App".toList
          (.manifest ["a.sinf".toList, "b.sinf".toList, "c.sinf".toList])
          [(0, [1])] none).files.length)
        (hp : i < (["a.sinf".toList, "b.sinf".toList, "c.sinf".toList]).length)
        (hs : i < ([(0, [1])] : List (Int × List Nat)).length),
        (plan_injection "App".toList
            (.manifest ["a.sinf".toList, "b.sinf".toList, "c.sinf".toList])
            [(0, [1])] none).files.get ⟨i, hf⟩ =
          ("Payload/".toList ++ "App".toList ++ ".app/".toList ++
              (["a.sinf".toList, "b.sinf".toList, "c.sinf".toList]).get ⟨i, hp⟩,
            (([(0, [1])] : List (Int × List Nat)).get ⟨i, hs⟩).2)) :=
  ⟨by decide,
    c6_plan_manifest_truncates "App".toList
      ["a.sinf".toList, "b.sinf".toList, "c.sinf".toList] [(0, [1])] (by decide)⟩

/-- **C7 counterexample.** With an empty SigningBlob list but a present
metadata blob, `plan_injection` still emits the `iTunesMetadata.plist`
entry: the plan has one file, not zero, refuting the claim's "for every
optional metadata blob". -/
theorem c7_counterexample_metadata_entry :
    (plan_injection "App".toList (.info "App".toList) [] (some [1])).files.length
        = 1 ∧
    (plan_injection "App".toList (.info "App".toList) [] (some [1])).files
        = [("iTunesMetadata.plist".toList, [1])] := by decide

/-- **C7 (amended).** With an empty SigningBlob list and no metadata,
`plan_injection` yields a plan with zero files, for every bundle name and
injection source. -/
theorem c7_empty_blobs_no_metadata_empty_plan (b : Str) (src : InjectionSource) :
    plan_injection b src [] none = ⟨[]⟩ := by
  cases src <;> simp [plan_injection]

/-- **C8 counterexample.** `"zzzzzzzz"` is non-empty and not all ASCII hex
digits, yet `validate_account_hash` accepts it, refuting the claimed
"accepts iff non-empty and all hex" characterization. -/
theorem c8_counterexample_nonhex_accepted :
    validate_account_hash "zzzzzzzz".toList = true ∧
    ¬ spec_guid_accepts "zzzzzzzz".toList := by decide

/-- **C8 (amended).** `validate_account_hash` accepts exactly the strings
of length at least 8 all of whose characters are ASCII alphanumeric or
one of `.`, `_`, `-`. -/
theorem c8_validate_account_hash_characterization (h : Str) :
    validate_account_hash h = true ↔
      (8 ≤ h.length ∧
        ∀ c ∈ h, (isAsciiAlphanum c || c = '.' || c = '_' || c = '-') = true) := by
  simp [validate_account_hash, List.all_eq_true, ge_iff_le]

/-- **C10.** When the base64 metadata blob decodes but the XML-to-binary
plist conversion fails, the metadata-preparation step succeeds with the
raw decoded bytes, and the plan injects exactly those bytes at
`iTunesMetadata.plist` — conversion failure never becomes an injection
error. -/
theorem c10_metadata_conversion_failure_downgraded
    (b64decode : Str → Except Str (List Nat))
    (xmlToBinary : List Nat → Except Str (List Nat))
    (b64 : Str) (xmlBytes : List Nat) (e : Str)
    (hdec : b64decode b64 = .ok xmlBytes)
    (hconv : xmlToBinary xmlBytes = .error e)
    (bn : Str) (src : InjectionSource) (sd : List (Int × List Nat)) :
    prepare_metadata b64decode xmlToBinary (some b64) = .ok (some xmlBytes) ∧
    ("iTunesMetadata.plist".toList, xmlBytes) ∈
      (plan_injection bn src sd (some xmlBytes)).files := by
  refine ⟨?_, ?_⟩
  · simp [prepare_metadata, hdec, hconv]
  · cases src <;> cases sd <;> simp [plan_injection]

/-- Closed witness for `c10_metadata_conversion_failure_downgraded`. -/
theorem c10_metadata_conversion_failure_downgraded_witness :
    (fun (_ : Str) => (Except.ok [7] : Except Str (List Nat))) "bWV0YQ==".toList
        = .ok [7] ∧
    (fun (_ : List Nat) => (Except.error "bad plist".toList : Except Str (List Nat)))
        [7] = .error "bad plist".toList ∧
    (prepare_metadata (fun _ => .ok [7]) (fun _ => .error "bad plist".toList)
        (some "bWV0YQ==".toList) = .ok (some [7]) ∧
      ("iTunesMetadata.plist".toList, [7]) ∈
        (plan_injection "App".toList (.info "App".toList) [(0, [1])]
            (some [7])).files) :=
  ⟨rfl, rfl,
    c10_metadata_conversion_failure_downgraded
      (fun _ => .ok [7]) (fun _ => .error "bad plist".toList)
      "bWV0YQ==".toList [7] "bad plist".toList rfl rfl
      "App".toList (.info "App".toList) [(0, [1])]⟩

/-! ## Claims about the sanitizer and the archive rewrite engine -/

/-- Every character a successful `sanitize_path_segment` emits satisfies
`is_safe_segment_char`. -/
theorem sanitize_output_chars_safe (v : Str) :
    ∀ c ∈ v.map (fun c => if is_safe_segment_char c then c else '_'),
      is_safe_segment_char c = true := by
  intro c hc
  rcases List.mem_map.mp hc with ⟨a, _, rfl⟩
  by_cases hs : is_safe_segment_char a
  · simp [hs]
  · simp only [if_neg hs]; decide

/-- **C9.** If `sanitize_path_segment` succeeds, applying it to its own
output succeeds with the same string (idempotence), and the output never
contains `'/'`. -/
theorem c9_sanitize_idempotent_no_slash (v out : Str)
    (h : sanitize_path_segment v = .ok out) :
    sanitize_path_segment out = .ok out ∧ '/' ∉ out := by
  unfold sanitize_path_segment at h
  dsimp only at h
  split at h
  · exact absurd h (by simp)
  · rename_i hguard
    have hout : v.map (fun c => if is_safe_segment_char c then c else '_') = out := by
      simpa using h
    have hsafe : ∀ c ∈ out, is_safe_segment_char c = true := by
      rw [← hout]; exact sanitize_output_chars_safe v
    have hfix : out.map (fun c => if is_safe_segment_char c then c else '_') = out := by
      have : out.map (fun c => if is_safe_segment_char c then c else '_') =
          out.map id := by
        apply List.map_congr_left
        intro a ha
        simp [hsafe a ha]
      simpa using this
    constructor
    · unfold sanitize_path_segment
      rw [hfix]
      rw [hout] at hguard
      simp only [if_neg hguard]
    · intro hsl
      have := hsafe '/' hsl
      simp [is_safe_segment_char, isAsciiAlphanum] at this

/-- Closed witness for `c9_sanitize_idempotent_no_slash` at `"a b"`. -/
theorem c9_sanitize_idempotent_no_slash_witness :
    sanitize_path_segment "a b".toList = .ok "a_b".toList ∧
    (sanitize_path_segment "a_b".toList = .ok "a_b".toList ∧
      '/' ∉ "a_b".toList) :=
  ⟨by decide, c9_sanitize_idempotent_no_slash "a b".toList "a_b".toList (by decide)⟩

/-- **C4 counterexample.** A plan that lists the same (path, bytes) pair
twice makes the rewrite engine emit that entry twice, so "every planned
pair appears in the output archive exactly once" fails for plans with
duplicate entries. -/
theorem c4_counterexample_duplicate_pair :
    ([("x".toList, [1]), ("x".toList, [1])] : List (Str × List Nat)) ≠ [] ∧
    (rewrite_zip [] [("x".toList, [1]), ("x".toList, [1])]).count
        ⟨"x".toList, ZMethod.stored, [1]⟩ = 2 := by decide

/-- **C4 (amended).** Provided the planned paths are pairwise distinct,
every planned (path, bytes) pair appears in the rewritten archive exactly
once, as a `Stored` entry; and every output entry at a planned path comes
from the plan (no original entry at a planned path is copied). -/
theorem c4_rewrite_replaces_planned_paths (entries : List ZEntry)
    (plan : List (Str × List Nat)) (hnd : (plan.map Prod.fst).Nodup) :
    (∀ pd ∈ plan,
      (rewrite_zip entries plan).count ⟨pd.1, ZMethod.stored, pd.2⟩ = 1) ∧
    (∀ e ∈ rewrite_zip entries plan, e.name ∈ plan.map Prod.fst →
      e.method = ZMethod.stored ∧ (e.name, e.data) ∈ plan) := by
  constructor
  · intro pd hpd
    unfold rewrite_zip
    rw [List.count_append]
    have hfilter : (entries.filter
        (fun e => !plan.any (fun f => decide (f.1 = e.name)))).count
        (⟨pd.1, ZMethod.stored, pd.2⟩ : ZEntry) = 0 := by
      rw [List.count_eq_zero]
      intro hmem
      have hpred := List.of_mem_filter hmem
      simp only [Bool.not_eq_true', List.any_eq_false] at hpred
      have h2 := hpred pd hpd
      simp at h2
    rw [hfilter, Nat.zero_add]
    have hinj : Function.Injective
        (fun f : Str × List Nat => (⟨f.1, ZMethod.stored, f.2⟩ : ZEntry)) := by
      intro a b hab
      cases a; cases b; simpa using hab
    have hfpd : (⟨pd.1, ZMethod.stored, pd.2⟩ : ZEntry) =
        (fun f : Str × List Nat => (⟨f.1, ZMethod.stored, f.2⟩ : ZEntry)) pd := rfl
    rw [hfpd, List.count_map_of_injective plan _ hinj pd]
    exact List.count_eq_one_of_mem (List.Nodup.of_map _ hnd) hpd
  · intro e he hname
    unfold rewrite_zip at he
    rcases List.mem_append.mp he with hcopy | hplanned
    · exfalso
      have hpred := List.of_mem_filter hcopy
      simp only [Bool.not_eq_true', List.any_eq_false] at hpred
      rcases List.mem_map.mp hname with ⟨f, hf, hfe⟩
      have h2 := hpred f hf
      simp [hfe] at h2
    · rcases List.mem_map.mp hplanned with ⟨f, hf, rfl⟩
      exact ⟨rfl, hf⟩

/-- Closed witness for `c4_rewrite_replaces_planned_paths`: one original
entry is replaced in place by the planned `Stored` entry. -/
theorem c4_rewrite_replaces_planned_paths_witness :
    (([("x".toList, [1])] : List (Str × List Nat)).map Prod.fst).Nodup ∧
    ((∀ pd ∈ ([("x".toList, [1])] : List (Str × List Nat)),
      (rewrite_zip [⟨"x".toList, ZMethod.other 8, [9]⟩, ⟨"a".toList, ZMethod.other 8, [0]⟩]
          [("x".toList, [1])]).count ⟨pd.1, ZMethod.stored, pd.2⟩ = 1) ∧
    (∀ e ∈ rewrite_zip [⟨"x".toList, ZMethod.other 8, [9]⟩, ⟨"a".toList, ZMethod.other 8, [0]⟩]
        [("x".toList, [1])],
      e.name ∈ ([("x".toList, [1])] : List (Str × List Nat)).map Prod.fst →
      e.method = ZMethod.stored ∧ (e.name, e.data) ∈
        ([("x".toList, [1])] : List (Str × List Nat)))) :=
  ⟨by decide,
    c4_rewrite_replaces_planned_paths
      [⟨"x".toList, ZMethod.other 8, [9]⟩, ⟨"a".toList, ZMethod.other 8, [0]⟩]
      [("x".toList, [1])] (by decide)⟩

/-- **C5.** Whenever the injection pipeline reaches planning (archive
readable, bundle and source discovered, sinfs decoded, metadata
prepared) and the computed plan has no files, `inject_sinfs_in_memory`
returns the input bytes unchanged. -/
theorem c5_empty_plan_returns_input
    (zipParse : List Nat → Option (List ZEntry))
    (plistParse : List Nat → Option PValue)
    (b64decode : Str → Except Str (List Nat))
    (xmlToBinary : List Nat → Except Str (List Nat))
    (ipaData : List Nat) (sinfs : List Sinf) (meta : Option Str)
    (entries : List ZEntry) (bundleName : Str) (source : InjectionSource)
    (sinfData : List (Int × List Nat)) (metadataBinary : Option (List Nat))
    (h1 : zipParse ipaData = some entries)
    (h2 : find_bundle_name entries = some bundleName)
    (h3 : find_source plistParse entries = some source)
    (h4 : decode_sinfs b64decode sinfs = .ok sinfData)
    (h5 : prepare_metadata b64decode xmlToBinary meta = .ok metadataBinary)
    (h6 : (plan_injection bundleName source sinfData metadataBinary).files = []) :
    inject_sinfs_in_memory zipParse plistParse b64decode xmlToBinary
        ipaData sinfs meta = .ok (.original ipaData) := by
  unfold inject_sinfs_in_memory
  simp [h1, h2, h3, h4, h5, h6]

/-- The concrete archive of the `c5` witness. -/
def c5w_entries : List ZEntry :=
  [⟨"Payload/A.app/Info.plist".toList, ZMethod.other 8, [5]⟩,
   ⟨"Payload/A.app/SC_Info/Manifest.plist".toList, ZMethod.other 8, [7]⟩]

/-- The abstract ZIP reader of the `c5` witness. -/
def c5w_zip : List Nat → Option (List ZEntry) :=
  fun b => if b = [1, 2] then some c5w_entries else none

/-- The abstract plist parser of the `c5` witness: the manifest carries
an empty `SinfPaths` array. -/
def c5w_plist : List Nat → Option PValue :=
  fun d => if d = [7] then some (.dict [("SinfPaths".toList, .arr [])]) else none

/-- The abstract base64 decoder of the `c5` witness. -/
def c5w_b64 : Str → Except Str (List Nat) := fun _ => .ok [3]

/-- The abstract XML-to-binary conversion of the `c5` witness. -/
def c5w_xml : List Nat → Except Str (List Nat) := fun b => .ok b

/-- Closed witness for `c5_empty_plan_returns_input`: a manifest whose
`SinfPaths` array is empty yields an empty plan, and the engine returns
the original bytes. -/
theorem c5_empty_plan_returns_input_witness :
    c5w_zip [1, 2] = some c5w_entries ∧
    find_bundle_name c5w_entries = some "A".toList ∧
    find_source c5w_plist c5w_entries = some (.manifest []) ∧
    decode_sinfs c5w_b64 [⟨0, "AA==".toList⟩] = .ok [(0, [3])] ∧
    prepare_metadata c5w_b64 c5w_xml none = .ok none ∧
    (plan_injection "A".toList (.manifest []) [(0, [3])] none).files = [] ∧
    inject_sinfs_in_memory c5w_zip c5w_plist c5w_b64 c5w_xml
        [1, 2] [⟨0, "AA==".toList⟩] none = .ok (.original [1, 2]) :=
  ⟨by decide, by decide, by decide, by decide, by decide, by decide,
    c5_empty_plan_returns_input c5w_zip c5w_plist c5w_b64 c5w_xml
      [1, 2] [⟨0, "AA==".toList⟩] none c5w_entries "A".toList (.manifest [])
      [(0, [3])] none
      (by decide) (by decide) (by decide) (by decide) (by decide) (by decide)⟩

/-! ## Claims about the acquisition orchestrator -/

/-- The initial task of the `c2` counterexample run: secrets present. -/
def c2c_t0 : DownloadTask :=
  { id := "t1".toList
    software := ⟨"com.a.b".toList, "1.0".toList⟩
    accountHash := "abcdef12".toList
    downloadUrl := "https://cdn.apple.com/f.ipa".toList
    sinfs := [⟨0, "AA==".toList⟩]
    itunesMetadata := some "bWV0YQ==".toList
    status := TaskStatus.pending
    progress := 0
    error := none
    filePath := none }

/-- The (abstract) parse of the counterexample task's download URL. -/
def c2c_parsed : Option ParsedUrl :=
  some ⟨"https".toList, some "cdn.apple.com".toList⟩

/-- **C2 counterexample.** A run whose fetch answers HTTP 500 persists a
task in the terminal state `Failed` whose download URL, SigningBlob list
and metadata field are all still present — the write that records status
`Failed` does not clear the acquisition secrets. -/
theorem c2_counterexample_failed_put_retains_secrets :
    ∃ t ∈ (download_and_store c2c_t0 c2c_parsed 500 [] (.ok [])).kvPuts,
      (t.status = TaskStatus.completed ∨ t.status = TaskStatus.failed) ∧
      ¬(t.downloadUrl = [] ∧ t.sinfs = [] ∧ t.itunesMetadata = none) := by decide

/-- **C2 (amended).** Every metadata-store write the orchestrator issues
with status `Completed` has the download URL, the SigningBlob list and
the metadata field cleared. (The `Failed` write retains them.) -/
theorem c2_completed_puts_are_stripped (t0 : DownloadTask)
    (parsedUrl : Option ParsedUrl) (respStatus : Nat) (respBytes : List Nat)
    (injectResult : Except Str (List Nat)) :
    ∀ t ∈ (download_and_store t0 parsedUrl respStatus respBytes
        injectResult).kvPuts,
      t.status = TaskStatus.completed →
      t.downloadUrl = [] ∧ t.sinfs = [] ∧ t.itunesMetadata = none := by
  intro t ht hc
  unfold download_and_store at ht
  cases hv : validate_download_url parsedUrl with
  | error e =>
    rw [hv] at ht
    simp only [List.mem_singleton] at ht
    subst ht
    simp at hc
  | ok u =>
    rw [hv] at ht
    by_cases h4 : 400 ≤ respStatus
    · simp only [if_pos h4] at ht
      rcases List.mem_pair.mp ht with rfl | rfl
      · simp at hc
      · simp at hc
    · simp only [if_neg h4] at ht
      by_cases hs : t0.sinfs = []
      · simp only [hs] at ht
        simp at ht
        rcases ht with rfl | rfl
        · simp at hc
        · simp
      · have hs' : ({ t0 with status := TaskStatus.downloading } : DownloadTask).sinfs ≠ [] := hs
        simp only [if_pos hs'] at ht
        simp at ht
        rcases ht with rfl | rfl | rfl
        · simp at hc
        · simp at hc
        · simp

/-- The initial task of the `c2` witness run (no SigningBlobs, so the
run completes without the injection checkpoint). -/
def c2w_t0 : DownloadTask :=
  { id := "t2".toList
    software := ⟨"com.a.b".toList, "1.0".toList⟩
    accountHash := "abcdef12".toList
    downloadUrl := "https://cdn.apple.com/f.ipa".toList
    sinfs := []
    itunesMetadata := none
    status := TaskStatus.pending
    progress := 0
    error := none
    filePath := none }

/-- The completed task the `c2` witness run persists. -/
def c2w_completed : DownloadTask :=
  { c2w_t0 with status := TaskStatus.completed, progress := 100,
                downloadUrl := [], sinfs := [], itunesMetadata := none,
                filePath := some (r2_key c2w_t0) }

/-- Closed witness for `c2_completed_puts_are_stripped` on a successful
run. -/
theorem c2_completed_puts_are_stripped_witness :
    c2w_completed ∈ (download_and_store c2w_t0 c2c_parsed 200 [9] (.ok [])).kvPuts ∧
    c2w_completed.status = TaskStatus.completed ∧
    (c2w_completed.downloadUrl = [] ∧ c2w_completed.sinfs = [] ∧
      c2w_completed.itunesMetadata = none) :=
  ⟨by decide, by decide,
    c2_completed_puts_are_stripped c2w_t0 c2c_parsed 200 [9] (.ok [])
      c2w_completed (by decide) (by decide)⟩

/-- **C3.** On a run with a valid URL, a successful fetch and a non-empty
SigningBlob list, if the in-memory injection sub-pipeline returns an
error, the orchestrator stores the unmodified fetched bytes under the
storage key, finishes with `Ok`, and the last persisted task has status
`Completed` — injection failure never ends the task in `Failed`. -/
theorem c3_injection_failure_is_nonfatal (t0 : DownloadTask)
    (parsedUrl : Option ParsedUrl) (respStatus : Nat) (respBytes : List Nat)
    (e : Str)
    (hv : validate_download_url parsedUrl = .ok ())
    (hst : respStatus < 400)
    (hs : t0.sinfs ≠ []) :
    (download_and_store t0 parsedUrl respStatus respBytes (.error e)).outcome
        = .ok () ∧
    (download_and_store t0 parsedUrl respStatus respBytes (.error e)).r2Puts
        = [(r2_key t0, respBytes)] ∧
    ((download_and_store t0 parsedUrl respStatus respBytes
        (.error e)).kvPuts.getLast?).map DownloadTask.status
        = some TaskStatus.completed ∧
    ∀ t ∈ (download_and_store t0 parsedUrl respStatus respBytes
        (.error e)).kvPuts, t.status ≠ TaskStatus.failed := by
  have h4 : ¬ 400 ≤ respStatus := Nat.not_le.mpr hst
  have hs' : ({ t0 with status := TaskStatus.downloading } : DownloadTask).sinfs ≠ [] := hs
  unfold download_and_store
  rw [hv]
  simp only [if_neg h4, if_pos hs']
  refine ⟨by simp, by simp, by simp, ?_⟩
  intro t ht
  simp at ht
  rcases ht with rfl | rfl | rfl <;> simp

/-- The initial task of the `c3` witness run. -/
def c3w_t0 : DownloadTask :=
  { id := "t3".toList
    software := ⟨"com.a.b".toList, "1.0".toList⟩
    accountHash := "abcdef12".toList
    downloadUrl := "https://cdn.apple.com/f.ipa".toList
    sinfs := [⟨0, "AA==".toList⟩]
    itunesMetadata := none
    status := TaskStatus.pending
    progress := 0
    error := none
    filePath := none }

/-- The (abstract) parse of the `c3` witness task's download URL. -/
def c3w_parsed : Option ParsedUrl :=
  some ⟨"https".toList, some "iosapps.itunes.apple.com".toList⟩

/-- Closed witness for `c3_injection_failure_is_nonfatal`. -/
theorem c3_injection_failure_is_nonfatal_witness :
    validate_download_url c3w_parsed = .ok () ∧ 200 < 400 ∧
    c3w_t0.sinfs ≠ [] ∧
    ((download_and_store c3w_t0 c3w_parsed 200 [4, 2]
        (.error "Read ZIP".toList)).outcome = .ok () ∧
      (download_and_store c3w_t0 c3w_parsed 200 [4, 2]
          (.error "Read ZIP".toList)).r2Puts = [(r2_key c3w_t0, [4, 2])] ∧
      ((download_and_store c3w_t0 c3w_parsed 200 [4, 2]
          (.error "Read ZIP".toList)).kvPuts.getLast?).map DownloadTask.status
          = some TaskStatus.completed ∧
      ∀ t ∈ (download_and_store c3w_t0 c3w_parsed 200 [4, 2]
          (.error "Read ZIP".toList)).kvPuts, t.status ≠ TaskStatus.failed) :=
  ⟨by decide, by decide, by decide,
    c3_injection_failure_is_nonfatal c3w_t0 c3w_parsed 200 [4, 2]
      "Read ZIP".toList (by decide) (by decide) (by decide)⟩

/-! ## Claims about download URL validation -/

/-- **C1 counterexample.** The apex domain itself is rejected: for the
URL `https://apple.com/...` the parser yields scheme `https` and host
`apple.com`, which is neither an IP literal nor accepted by
`is_apple_domain`, so `validate_download_url` returns the Apple-domain
error where the claim requires `Ok`. -/
theorem c1_counterexample_apex_rejected :
    is_ip_address "apple.com".toList = false ∧
    is_apple_domain "apple.com".toList = false ∧
    validate_download_url (some ⟨"https".toList, some "apple.com".toList⟩) =
      .error "Download URL must be from an Apple domain (*.apple.com)".toList := by
  decide

/-- **C1 (amended).** Over the abstract result of URL parsing,
`validate_download_url` returns `Ok` iff the scheme is exactly `https`,
a host is present, the host is not a literal IPv4/IPv6 address
(including bracketed forms), and the lower-cased host ends with the
suffix `.apple.com` — i.e. it is a *strict* subdomain of the trusted
apex; the apex `apple.com` itself is rejected. A parse failure is
rejected as well. -/
theorem c1_validate_download_url_characterization (p : ParsedUrl) :
    validate_download_url (some p) = .ok () ↔
      (p.scheme = "https".toList ∧ ∃ host, p.host = some host ∧
        is_ip_address host = false ∧ is_apple_domain host = true) := by
  rcases p with ⟨sc, ho⟩
  simp only [validate_download_url]
  by_cases hsch : sc = "https".toList
  · simp only [hsch, ne_eq, not_true_eq_false, if_false, reduceIte]
    cases ho with
    | none => simp
    | some host =>
      by_cases hip : is_ip_address host
      · simp [hip]
      · by_cases hap : is_apple_domain host
        · simp [hip, hap]
        · simp [hip, hap]
  · have hsch' : ¬ sc = ['h', 't', 't', 'p', 's'] := by simpa using hsch
    simp [hsch']
